import Mathlib

/-!
Verification of the FEMA Public Assistance ETL pipeline (`src/etl/etl.py`)
against its natural-language specification.

The Python source is shallowly embedded: each Python function of interest
becomes a Lean definition of the same name (where Lean allows it), stateful
database effects become explicit state passing over a `Store`, and SQL
statements are translated row by row from their text.  Timestamps stored in
the database are modelled as `Option Nat` (`none` is SQL NULL; a `some`
value is the parsed `timestamptz` instant — `NULLIF(:lastrefresh,'')` maps
both a missing and an empty incoming string to `none`).
-/

namespace Etl

/-- A raw API record (`obj` in `upsert_landing`): its `hash` field
(`obj.get("hash")`, `none` when the key is missing), its `lastRefresh`
field after parsing (`none` for a missing or empty value), and the rest of
the JSON document, opaque to the pipeline, as a `payload` tag. -/
structure RawRecord where
  hash : Option String
  lastRefresh : Option Nat
  payload : Nat
deriving DecidableEq

/-- Whether `upsert_landing` keeps a record: Python `if not h: continue`
drops a record whose hash is missing (`None`) or the empty string. -/
def validRec (r : RawRecord) : Bool :=
  match r.hash with
  | none => false
  | some h => !h.isEmpty

/-- A row of the landing table: `(hash, raw, lastrefresh)`.  The `raw`
JSONB column holds `json.dumps(obj)`, i.e. the whole incoming record; the
key `hash` is the lookup key of the surrounding `Store`. -/
structure LRow where
  raw : RawRecord
  lastrefresh : Option Nat
deriving DecidableEq

/-- The landing table, keyed by `hash`. -/
def Store := String → Option LRow

/-- The empty landing table. -/
def emptyStore : Store := fun _ => none

/-- One entry of the `payload` list built by `upsert_landing`:
`{"hash": h, "raw": json.dumps(obj), "lastrefresh": lr}`. -/
structure PayloadRow where
  hash : String
  raw : RawRecord
  lastrefresh : Option Nat
deriving DecidableEq

/-- The payload entry one record contributes, if any: records without a
usable hash contribute nothing. -/
def payloadEntry (obj : RawRecord) : Option PayloadRow :=
  match obj.hash with
  | none => none
  | some h => if h.isEmpty then none else some ⟨h, obj, obj.lastRefresh⟩

/-- The `payload` list of `upsert_landing`: records without a usable hash
are skipped, the rest keep their whole document and parsed timestamp. -/
def buildPayload (rows : List RawRecord) : List PayloadRow :=
  rows.filterMap payloadEntry

/-- SQL `COALESCE` on two nullable values. -/
def coalesce : Option α → Option α → Option α
  | some a, _ => some a
  | none, b => b

/-- The `lastrefresh` column of a possibly absent row. -/
def lrv (c : Option LRow) : Option Nat := c.bind LRow.lastrefresh

/-- Effect of the `INSERT ... ON CONFLICT (hash) DO UPDATE` statement on
the single cell keyed by the payload row's hash: the raw document is
replaced unconditionally, and `lastrefresh` becomes
`COALESCE(EXCLUDED.lastrefresh, old.lastrefresh)` (on a fresh insert the
old value is absent, so the incoming value is stored as is). -/
def cellStep (c : Option LRow) (p : PayloadRow) : Option LRow :=
  some ⟨p.raw, coalesce p.lastrefresh (lrv c)⟩

/-- One execution of the upsert statement for one payload row
(`executemany` runs the statement once per entry, in order). -/
def applyRow (s : Store) (p : PayloadRow) : Store :=
  fun h0 => if h0 = p.hash then cellStep (s p.hash) p else s h0

/-- The whole bulk upsert: the statement executed for each payload row in
sequence. -/
def applyPayload (s : Store) (ps : List PayloadRow) : Store :=
  ps.foldl applyRow s

/-- What `upsert_landing` returns and does: the merged count, the new
landing state, and whether any SQL was executed at all. -/
structure MergeResult where
  store : Store
  count : Nat
  wrote : Bool

/-- `upsert_landing(rows)` from the source: return 0 with no write when
`rows` is empty or when every record lacks a hash; otherwise execute the
bulk upsert and return the payload length. -/
def upsert_landing (s : Store) (rows : List RawRecord) : MergeResult :=
  if rows.isEmpty then ⟨s, 0, false⟩
  else
    let payload := buildPayload rows
    if payload.isEmpty then ⟨s, 0, false⟩
    else ⟨applyPayload s payload, payload.length, true⟩

/-- Merging the same batch `n` times in sequence. -/
def merge_n : Nat → Store → List RawRecord → Store
  | 0, s, _ => s
  | n + 1, s, rows => merge_n n (upsert_landing s rows).store rows

theorem coalesce_assoc (a b c : Option α) :
    coalesce (coalesce a b) c = coalesce a (coalesce b c) := by
  cases a <;> cases b <;> rfl

theorem coalesce_self (a : Option α) : coalesce a a = a := by
  cases a <;> rfl

theorem coalesce_none_right (a : Option α) : coalesce a none = a := by
  cases a <;> rfl

/-- Accumulated `lastrefresh` over a payload list starting from `t`. -/
def lrFold (t : Option Nat) (l : List PayloadRow) : Option Nat :=
  l.foldl (fun a p => coalesce p.lastrefresh a) t

theorem lrFold_nil (t : Option Nat) : lrFold t [] = t := rfl

theorem lrFold_cons (t : Option Nat) (p : PayloadRow) (l : List PayloadRow) :
    lrFold t (p :: l) = lrFold (coalesce p.lastrefresh t) l := rfl

theorem lrFold_shift (l : List PayloadRow) (t : Option Nat) :
    lrFold t l = coalesce (lrFold none l) t := by
  induction l generalizing t with
  | nil => cases t <;> rfl
  | cons p l ih =>
    rw [lrFold_cons, ih, lrFold_cons, coalesce_none_right, ih p.lastrefresh,
      coalesce_assoc]

theorem lrFold_idem (l : List PayloadRow) (t : Option Nat) :
    lrFold (lrFold t l) l = lrFold t l := by
  rw [lrFold_shift l (lrFold t l), lrFold_shift l t, ← coalesce_assoc,
    coalesce_self]

/-- The raw document of the last payload row of `p :: l`. -/
def lastRaw (p : PayloadRow) : List PayloadRow → RawRecord
  | [] => p.raw
  | q :: l => lastRaw q l

theorem lrv_cellStep (c : Option LRow) (p : PayloadRow) :
    lrv (cellStep c p) = coalesce p.lastrefresh (lrv c) := rfl

/-- Folding `cellStep` over a nonempty list lands on the last raw document
and the coalesced timestamp chain. -/
theorem cellFold_char (l : List PayloadRow) (p : PayloadRow) (c : Option LRow) :
    (p :: l).foldl cellStep c = some ⟨lastRaw p l, lrFold (lrv c) (p :: l)⟩ := by
  induction l generalizing p c with
  | nil => rfl
  | cons q l ih =>
    show (q :: l).foldl cellStep (cellStep c p) = _
    rw [ih q (cellStep c p)]
    rw [lrv_cellStep]
    rfl

theorem cellFold_idem (l : List PayloadRow) (c : Option LRow) :
    l.foldl cellStep (l.foldl cellStep c) = l.foldl cellStep c := by
  cases l with
  | nil => rfl
  | cons p l =>
    rw [cellFold_char l p c,
      cellFold_char l p (some (⟨lastRaw p l, lrFold (lrv c) (p :: l)⟩ : LRow))]
    show some (⟨lastRaw p l, lrFold (lrFold (lrv c) (p :: l)) (p :: l)⟩ : LRow) = _
    rw [lrFold_idem]

/-- Pointwise view of the bulk upsert: the cell at `h0` is reached only by
the payload rows whose hash is `h0`, in order. -/
theorem applyPayload_cell (ps : List PayloadRow) (s : Store) (h0 : String) :
    applyPayload s ps h0 =
      (ps.filter fun p => p.hash = h0).foldl cellStep (s h0) := by
  induction ps generalizing s with
  | nil => rfl
  | cons p ps ih =>
    show applyPayload (applyRow s p) ps h0 = _
    rw [ih]
    by_cases hph : p.hash = h0
    · have hfil : (p :: ps).filter (fun p => decide (p.hash = h0)) =
        p :: ps.filter fun p => decide (p.hash = h0) := by
        simp [List.filter, hph]
      rw [hfil]
      have : applyRow s p h0 = cellStep (s h0) p := by
        unfold applyRow
        rw [if_pos hph.symm, hph]
      rw [this]
      rfl
    · have hfil : (p :: ps).filter (fun p => decide (p.hash = h0)) =
        ps.filter fun p => decide (p.hash = h0) := by
        simp [List.filter, hph]
      rw [hfil]
      have : applyRow s p h0 = s h0 := by
        unfold applyRow
        rw [if_neg (fun h => hph h.symm)]
      rw [this]

theorem applyPayload_idem (s : Store) (ps : List PayloadRow) :
    applyPayload (applyPayload s ps) ps = applyPayload s ps := by
  funext h0
  rw [applyPayload_cell, applyPayload_cell]
  exact cellFold_idem _ _

theorem upsert_landing_store_idem (s : Store) (rows : List RawRecord) :
    (upsert_landing (upsert_landing s rows).store rows).store =
      (upsert_landing s rows).store := by
  unfold upsert_landing
  by_cases hrows : rows.isEmpty
  · rw [if_pos hrows, if_pos hrows]
  · rw [if_neg hrows, if_neg hrows]
    by_cases hpay : (buildPayload rows).isEmpty
    · rw [if_pos hpay, if_pos hpay]
    · rw [if_neg hpay, if_neg hpay]
      exact applyPayload_idem s (buildPayload rows)

theorem payloadEntry_of_invalid (r : RawRecord) (h : validRec r = false) :
    payloadEntry r = none := by
  unfold validRec at h
  unfold payloadEntry
  cases hh : r.hash with
  | none => rfl
  | some s =>
    rw [hh] at h
    simp only [Bool.not_eq_false'] at h
    simp [h]

theorem payloadEntry_of_valid (r : RawRecord) (h : validRec r = true) :
    ∃ s, r.hash = some s ∧ payloadEntry r = some ⟨s, r, r.lastRefresh⟩ := by
  unfold validRec at h
  unfold payloadEntry
  cases hh : r.hash with
  | none => rw [hh] at h; exact absurd h (by simp)
  | some s =>
    rw [hh] at h
    simp only [Bool.not_eq_true'] at h
    exact ⟨s, rfl, by simp [h]⟩

theorem buildPayload_filter_valid (l : List RawRecord) :
    buildPayload (l.filter validRec) = buildPayload l := by
  induction l with
  | nil => rfl
  | cons r l ih =>
    unfold buildPayload at *
    cases hv : validRec r with
    | false =>
      rw [List.filter_cons_of_neg (by simp [hv]), ih,
        List.filterMap_cons, payloadEntry_of_invalid r hv]
    | true =>
      rw [List.filter_cons_of_pos (by simp [hv]), List.filterMap_cons,
        List.filterMap_cons, ih]

theorem buildPayload_all_invalid (l : List RawRecord)
    (h : ∀ r ∈ l, validRec r = false) : buildPayload l = [] := by
  induction l with
  | nil => rfl
  | cons r l ih =>
    unfold buildPayload at *
    rw [List.filterMap_cons, payloadEntry_of_invalid r (h r (by simp)),
      ih fun r hr => h r (by simp [hr])]

theorem buildPayload_length_of_valid (l : List RawRecord)
    (h : ∀ r ∈ l, validRec r = true) : (buildPayload l).length = l.length := by
  induction l with
  | nil => rfl
  | cons r l ih =>
    unfold buildPayload at *
    obtain ⟨s, _, he⟩ := payloadEntry_of_valid r (h r (by simp))
    rw [List.filterMap_cons, he, List.length_cons,
      ih fun r hr => h r (by simp [hr])]
    rfl

/-!
The flat table and the Flat Projector (`sync_flat_from_landing`).  The 23
typed columns extracted from the raw document play no role in any claim,
so a flat row keeps its `lastrefresh` column and the raw document snapshot
(`raw = EXCLUDED.raw`); both are overwritten on every upsert, exactly as
every column is in the SQL `ON CONFLICT` clause.
-/

/-- A row of the flat table: its `lastrefresh` column and the raw document
snapshot it was projected from. -/
structure FlatRow where
  lastrefresh : Option Nat
  raw : RawRecord
deriving DecidableEq

/-- The flat table, keyed by `hash`. -/
def FlatStore := String → Option FlatRow

/-- The empty flat table. -/
def emptyFlat : FlatStore := fun _ => none

/-- The `WHERE` clause of `sync_flat_from_landing`, per landing row `l`
with flat counterpart `f` (from the `LEFT JOIN`, so `f = none` makes
`f.hash IS NULL` true):

`f.hash IS NULL OR (l.lastrefresh IS NOT NULL AND l.lastrefresh > f.lastrefresh)`

SQL comparison with a NULL operand yields UNKNOWN, and a row whose `WHERE`
value is UNKNOWN is filtered out just like `false`; since the comparison
appears un-negated, the three-valued condition collapses to this Bool. -/
def flatWhere (l : LRow) (f : Option FlatRow) : Bool :=
  match f with
  | none => true
  | some fr =>
    match l.lastrefresh, fr.lastrefresh with
    | some lt, some ft => decide (ft < lt)
    | _, _ => false

/-- `sync_flat_from_landing()`: every landing row passing the `WHERE`
clause is upserted into flat, overwriting all columns; flat rows without a
selected landing counterpart are left untouched. -/
def sync_flat_from_landing (L : Store) (F : FlatStore) : FlatStore :=
  fun h =>
    match L h with
    | none => F h
    | some l => if flatWhere l (F h) then some ⟨l.lastrefresh, l.raw⟩ else F h

/-- Modelled from the spec's words, for comparison with `flatWhere`: a
landing row is selected when absent from flat or when
`landing.last_refresh > flat.last_refresh`, a null flat timestamp being
treated as less than any value. -/
def specSelected (l : LRow) (f : Option FlatRow) : Bool :=
  match f with
  | none => true
  | some fr =>
    match l.lastrefresh, fr.lastrefresh with
    | some lt, some ft => decide (ft < lt)
    | some _, none => true
    | none, _ => false

/-- A concrete raw record used by the C1 evaluation. -/
def recC1 : RawRecord := ⟨some "h1", some 5, 0⟩

/-- A landing store holding `recC1` under `"h1"` with `lastrefresh = 5`. -/
def landingC1 : Store :=
  fun h => if h = "h1" then some ⟨recC1, some 5⟩ else none

/-- A flat store holding `"h1"` with a NULL `lastrefresh`. -/
def flatC1 : FlatStore :=
  fun h => if h = "h1" then some ⟨none, recC1⟩ else none

/-- C1: the Flat Projector's `WHERE` clause does NOT select a landing row
with a non-null `last_refresh` whose flat counterpart has a NULL
`last_refresh`: the SQL comparison `l.lastrefresh > f.lastrefresh` is
UNKNOWN on a NULL operand, so the row is dropped and the flat row stays
stale, although the claim (and the spec, which treats a null flat
timestamp as less than any value) says it must be selected and
re-projected. -/
theorem c1_flat_null_timestamp_not_selected :
    flatWhere ⟨recC1, some 5⟩ (some ⟨none, recC1⟩) = false ∧
    specSelected ⟨recC1, some 5⟩ (some ⟨none, recC1⟩) = true ∧
    sync_flat_from_landing landingC1 flatC1 "h1" = some ⟨none, recC1⟩ := by
  refine ⟨rfl, rfl, ?_⟩
  decide

/-- C6: the Landing Merger is idempotent — merging the same record
sequence `n ≥ 1` times leaves the landing store exactly as merging it
once. -/
theorem c6_merge_idempotent (s : Store) (rows : List RawRecord) (n : Nat)
    (h : 1 ≤ n) : merge_n n s rows = (upsert_landing s rows).store := by
  obtain ⟨k, rfl⟩ : ∃ k, n = k + 1 := ⟨n - 1, by omega⟩
  clear h
  induction k generalizing s with
  | zero => rfl
  | succ k ih =>
    show merge_n (k + 1) (upsert_landing s rows).store rows = _
    rw [ih (upsert_landing s rows).store, upsert_landing_store_idem]

/-- C6 witness: merging a concrete batch three times equals merging it
once. -/
theorem c6_witness :
    1 ≤ 3 ∧
    merge_n 3 emptyStore [⟨some "a", some 4, 1⟩, ⟨some "a", none, 2⟩] =
      (upsert_landing emptyStore [⟨some "a", some 4, 1⟩, ⟨some "a", none, 2⟩]).store :=
  ⟨by decide, c6_merge_idempotent emptyStore _ 3 (by decide)⟩

/-- C8: hash gating.  First, `upsert_landing` ignores records without a
usable hash entirely: merging a batch equals merging its valid records
only, so a hashless record never reaches the landing store.  Second, the
Flat Projector only writes flat rows keyed by a hash present in landing,
so such a record never reaches the flat store either. -/
theorem c8_hash_gating :
    (∀ (s : Store) (rows : List RawRecord),
      upsert_landing s rows = upsert_landing s (rows.filter validRec)) ∧
    ∀ (L : Store) (F : FlatStore) (h : String),
      (sync_flat_from_landing L F h).isSome = true →
      (L h).isSome = true ∨ (F h).isSome = true := by
  constructor
  · intro s rows
    unfold upsert_landing
    by_cases hrows : rows.isEmpty
    · have : rows = [] := by rwa [List.isEmpty_iff] at hrows
      subst this
      rfl
    · rw [if_neg hrows]
      by_cases hfil : (rows.filter validRec).isEmpty
      · have hnil : rows.filter validRec = [] := by rwa [List.isEmpty_iff] at hfil
        have hpay : buildPayload rows = [] := by
          rw [← buildPayload_filter_valid, hnil]; rfl
        rw [hnil]
        rw [if_pos (by rw [hpay]; rfl)]
        rfl
      · rw [if_neg hfil]
        have hpayeq : buildPayload (rows.filter validRec) = buildPayload rows :=
          buildPayload_filter_valid rows
        have hvalid : ∀ r ∈ rows.filter validRec, validRec r = true := by
          intro r hr
          exact (List.mem_filter.mp hr).2
        have hlen : (buildPayload (rows.filter validRec)).length =
            (rows.filter validRec).length :=
          buildPayload_length_of_valid _ hvalid
        have hplen : 0 < (rows.filter validRec).length := by
          cases hc : rows.filter validRec with
          | nil => rw [hc] at hfil; exact absurd rfl hfil
          | cons a l => simp [hc]
        have hpne : ¬(buildPayload rows).isEmpty := by
          rw [← hpayeq]
          rw [List.isEmpty_iff, ← List.length_eq_zero]
          omega
        rw [if_neg hpne, if_neg (by rw [hpayeq]; exact hpne), hpayeq]
  · intro L F h hs
    cases hL : L h with
    | none =>
      right
      unfold sync_flat_from_landing at hs
      rw [hL] at hs
      exact hs
    | some l => left; simp [hL]

/-- C8 witness: a concrete hashless record is a no-op for `upsert_landing`,
and a concrete flat key produced by the projector has a landing or flat
counterpart. -/
theorem c8_witness :
    upsert_landing emptyStore [⟨none, some 3, 7⟩] =
      upsert_landing emptyStore ([⟨none, some 3, 7⟩].filter validRec) ∧
    ((landingC1 "h1").isSome = true ∨ (flatC1 "h1").isSome = true) :=
  ⟨c8_hash_gating.1 emptyStore [⟨none, some 3, 7⟩],
    c8_hash_gating.2 landingC1 flatC1 "h1" (by decide)⟩

/-- Modelled from the spec's words, for comparison with the `COALESCE` the
code executes: keep the newer of the existing and incoming `last_refresh`,
considering only non-null values. -/
def keepNewerNonNull : Option Nat → Option Nat → Option Nat
  | some a, some b => some (max a b)
  | some a, none => some a
  | none, b => b

/-- Existing landing state for the C4 counterexample: `"h1"` is stored
with `lastrefresh = 10`. -/
def storeC4 : Store :=
  fun h => if h = "h1" then some ⟨⟨some "h1", some 10, 3⟩, some 10⟩ else none

/-- Incoming record for the C4 counterexample: same hash, non-null but
OLDER `lastRefresh = 5`. -/
def recC4 : RawRecord := ⟨some "h1", some 5, 4⟩

/-- C4 counterexample: upserting an incoming record whose non-null
`lastRefresh` (5) is older than the stored value (10) REPLACES the stored
value — `COALESCE(EXCLUDED.lastrefresh, old)` prefers any non-null
incoming value — although the claim says the newer value (10) is kept. -/
theorem c4_older_incoming_overwrites_counterexample :
    lrv ((upsert_landing storeC4 [recC4]).store "h1") = some 5 ∧
    keepNewerNonNull (some 10) (some 5) = some 10 ∧
    lrv ((upsert_landing storeC4 [recC4]).store "h1") ≠
      keepNewerNonNull (some 10) (some 5) := by
  refine ⟨?_, rfl, ?_⟩ <;> decide

/-- C4 (amended): after upserting one record with a valid hash over an
existing row, the stored `last_refresh` is `COALESCE(incoming, existing)`
— the incoming value whenever it is non-null (even when older), and the
existing value otherwise — and the raw document is replaced. -/
theorem c4_coalesce_semantics (s : Store) (h : String) (r : RawRecord)
    (row : LRow) (hs : s h = some row) (hh : r.hash = some h)
    (hne : h.isEmpty = false) :
    (upsert_landing s [r]).store h =
      some ⟨r, coalesce r.lastRefresh row.lastrefresh⟩ := by
  have hpay : buildPayload [r] = [⟨h, r, r.lastRefresh⟩] := by
    unfold buildPayload List.filterMap payloadEntry
    rw [hh]
    simp [hne]
  unfold upsert_landing
  rw [if_neg (by simp)]
  rw [hpay]
  rw [if_neg (by simp)]
  show applyRow s ⟨h, r, r.lastRefresh⟩ h = _
  unfold applyRow
  rw [if_pos rfl]
  unfold cellStep lrv
  rw [hs]
  rfl

/-- C4 witness: concrete instance of the amended statement. -/
theorem c4_witness :
    storeC4 "h1" = some ⟨⟨some "h1", some 10, 3⟩, some 10⟩ ∧
    recC4.hash = some "h1" ∧ "h1".isEmpty = false ∧
    (upsert_landing storeC4 [recC4]).store "h1" =
      some ⟨recC4, coalesce recC4.lastRefresh (some 10)⟩ :=
  ⟨by decide, by decide, by decide,
    c4_coalesce_semantics storeC4 "h1" recC4 ⟨⟨some "h1", some 10, 3⟩, some 10⟩
      (by decide) (by decide) (by decide)⟩

/-- C10: an empty batch, or one in which every record lacks a usable hash,
returns a merged count of 0, performs no database write, and leaves the
landing store untouched. -/
theorem c10_empty_or_invalid_noop (s : Store) (rows : List RawRecord)
    (h : rows = [] ∨ ∀ r ∈ rows, validRec r = false) :
    upsert_landing s rows = ⟨s, 0, false⟩ := by
  cases h with
  | inl h => subst h; rfl
  | inr h =>
    unfold upsert_landing
    by_cases hrows : rows.isEmpty
    · rw [if_pos hrows]
    · rw [if_neg hrows, if_pos (by rw [buildPayload_all_invalid rows h]; rfl)]

/-- C10 witness: a concrete batch of two hashless records is a no-op. -/
theorem c10_witness :
    upsert_landing landingC1 [⟨none, some 9, 1⟩, ⟨some "", none, 2⟩] =
      ⟨landingC1, 0, false⟩ :=
  c10_empty_or_invalid_noop landingC1 _ (Or.inr (by decide))

/-!
The HTTP layer: `_sleep_backoff` and `http_get`.  A page request is driven
by a script mapping the attempt number to what that attempt observes; the
jitter `random.uniform(0, 1)` becomes an explicit rational parameter.
-/

/-- `MAX_RETRIES` from the source. -/
def MAX_RETRIES : Nat := 5

/-- The delay `_sleep_backoff(attempt, retry_after)` sleeps: the server
hint verbatim when it is present and non-zero (Python truthiness treats
both `None` and `0` as no hint), else
`min(60, 2 ** attempt + random.uniform(0, 1))` with the given jitter. -/
def backoff_delay (attempt : Nat) (retry_after : Option Nat) (jitter : ℚ) : ℚ :=
  match retry_after with
  | some ra => if ra = 0 then min 60 (2 ^ attempt + jitter) else (ra : ℚ)
  | none => min 60 (2 ^ attempt + jitter)

/-- The parsed JSON body of a successful response: a dict that may hold
the named record array `PublicAssistanceFundedProjectsDetails`. -/
structure Json where
  rowsField : Option (List RawRecord)
deriving DecidableEq

/-- What one HTTP attempt observes: a response carrying a status code, the
parsed `Retry-After` header (`0` when absent, as in
`int(r.headers.get("Retry-After", "0") or "0")`) and a body that either
parses to a JSON document or makes `r.json()` raise (`none`); or an
exception out of the request call itself. -/
inductive Outcome
  | resp (code : Nat) (retryAfter : Nat) (body : Option Json)
  | netErr
deriving DecidableEq

/-- The exceptions that can leave `http_get`. -/
inductive HErr
  | httpError (code : Nat)
  | jsonError
  | netError
deriving DecidableEq

/-- What a call of `http_get` produces: `.ok (some j)` for `return j`,
`.ok none` for falling off the retry loop (Python then implicitly returns
`None`), `.err` for a raised exception. -/
inductive HRes
  | ok (j : Option Json)
  | err (e : HErr)
deriving DecidableEq

/-- The visible behaviour of one `http_get` call: its result, the number
of attempts made, and every `_sleep_backoff(attempt, retry_after)` call in
order (`none` in the second component is Python's default
`retry_after=None`). -/
structure HttpTrace where
  result : HRes
  attemptsMade : Nat
  backoffs : List (Nat × Option Nat)
deriving DecidableEq

/-- The retry loop of `http_get`, by remaining iterations.  `attempt` is
the Python loop variable; `calls` accumulates backoff invocations in
reverse.  A 429/503 answer sleeps with the parsed `Retry-After` and
retries; a 5xx answer sleeps and retries; any raised exception — the
`HTTPError` of `raise_for_status` on a 4xx, a `r.json()` failure, or a
network error — re-raises on the last attempt and otherwise sleeps and
retries; exhausting the loop returns `None`. -/
def httpLoop (script : Nat → Outcome) :
    Nat → Nat → Nat → List (Nat × Option Nat) → HttpTrace
  | 0, _, made, calls => ⟨.ok none, made, calls.reverse⟩
  | fuel + 1, attempt, made, calls =>
    match script attempt with
    | .netErr =>
      if attempt = MAX_RETRIES then ⟨.err .netError, made + 1, calls.reverse⟩
      else httpLoop script fuel (attempt + 1) (made + 1) ((attempt, none) :: calls)
    | .resp code ra body =>
      if code = 429 ∨ code = 503 then
        httpLoop script fuel (attempt + 1) (made + 1) ((attempt, some ra) :: calls)
      else if 500 ≤ code then
        httpLoop script fuel (attempt + 1) (made + 1) ((attempt, none) :: calls)
      else if 400 ≤ code then
        if attempt = MAX_RETRIES then ⟨.err (.httpError code), made + 1, calls.reverse⟩
        else httpLoop script fuel (attempt + 1) (made + 1) ((attempt, none) :: calls)
      else
        match body with
        | some j => ⟨.ok (some j), made + 1, calls.reverse⟩
        | none =>
          if attempt = MAX_RETRIES then ⟨.err .jsonError, made + 1, calls.reverse⟩
          else httpLoop script fuel (attempt + 1) (made + 1) ((attempt, none) :: calls)

/-- `http_get(params)`: `for attempt in range(1, MAX_RETRIES + 1)`. -/
def http_get (script : Nat → Outcome) : HttpTrace :=
  httpLoop script MAX_RETRIES 1 0 []

/-- A page request whose every attempt is answered with HTTP 404. -/
def script404 : Nat → Outcome := fun _ => .resp 404 0 none

/-- C7 counterexample: at attempt 6 with jitter 1/2 the code returns
`min(60, 2^6 + 1/2) = 60`, not `min(60, 2^6) + 1/2 = 60.5` as the claim's
formula (cap before jitter) requires. -/
theorem c7_cap_after_jitter_counterexample :
    (0 : ℚ) ≤ 1 / 2 ∧ (1 / 2 : ℚ) < 1 ∧
    backoff_delay 6 none (1 / 2) = 60 ∧
    min 60 ((2 : ℚ) ^ 6) + 1 / 2 = 121 / 2 ∧
    backoff_delay 6 none (1 / 2) ≠ min 60 ((2 : ℚ) ^ 6) + 1 / 2 := by
  refine ⟨by norm_num, by norm_num, ?_, ?_, ?_⟩ <;>
    norm_num [backoff_delay, min_def]

/-- C7 (amended): a non-zero server hint is returned verbatim; otherwise
the delay is `min(60, 2^attempt + jitter)` — the cap is applied to the
exponential term PLUS the jitter.  For the attempt counts the fetcher
actually uses (1..5) the two formulas coincide, since there
`2^attempt + jitter < 60`. -/
theorem c7_backoff_formula (attempt : Nat) (jitter : ℚ) (ra : Nat) :
    (ra ≠ 0 → backoff_delay attempt (some ra) jitter = ra) ∧
    backoff_delay attempt none jitter = min 60 (2 ^ attempt + jitter) ∧
    (1 ≤ attempt → attempt ≤ 5 → 0 ≤ jitter → jitter < 1 →
      backoff_delay attempt none jitter = min 60 ((2 : ℚ) ^ attempt) + jitter) := by
  refine ⟨fun h => by simp [backoff_delay, h], rfl, fun h1 h5 hj0 hj1 => ?_⟩
  have hpow : (2 : ℚ) ^ attempt ≤ 32 := by
    calc (2 : ℚ) ^ attempt ≤ 2 ^ 5 := by
          apply pow_le_pow_right₀ (by norm_num) h5
    _ = 32 := by norm_num
  show min 60 (2 ^ attempt + jitter) = _
  rw [min_eq_right (by linarith), min_eq_right (by linarith)]

/-- C7 witness: the amended statement at attempt 3, jitter 1/3, hint 7. -/
theorem c7_witness :
    (7 : Nat) ≠ 0 ∧ backoff_delay 3 (some 7) (1 / 3) = 7 ∧
    backoff_delay 3 none (1 / 3) = min 60 (2 ^ 3 + 1 / 3) ∧
    (1 ≤ 3 ∧ 3 ≤ 5 ∧ (0 : ℚ) ≤ 1 / 3 ∧ (1 / 3 : ℚ) < 1) ∧
    backoff_delay 3 none (1 / 3) = min 60 ((2 : ℚ) ^ 3) + 1 / 3 :=
  ⟨by norm_num, (c7_backoff_formula 3 (1 / 3) 7).1 (by norm_num),
    (c7_backoff_formula 3 (1 / 3) 7).2.1,
    ⟨by norm_num, by norm_num, by norm_num, by norm_num⟩,
    (c7_backoff_formula 3 (1 / 3) 7).2.2 (by norm_num) (by norm_num)
      (by norm_num) (by norm_num)⟩

/-- C3 counterexample: a request answered with HTTP 404 on every attempt
is retried — 5 attempts are made and the backoff policy is invoked four
times — although the claim says a client error other than 429 surfaces
immediately without retry and without backoff. -/
theorem c3_client_error_retried_counterexample :
    http_get script404 =
      ⟨.err (.httpError 404), 5, [(1, none), (2, none), (3, none), (4, none)]⟩ ∧
    (http_get script404).attemptsMade ≠ 1 ∧
    (http_get script404).backoffs ≠ [] := by
  refine ⟨by decide, by decide, by decide⟩

/-- C3 (amended): a non-retryable error — a client-error status in 4xx
other than 429, or a malformed (unparseable) body — is caught by the
blanket `except` handler and retried with backoff exactly like a transient
failure; it surfaces only when it still occurs on the 5th and last
attempt. -/
theorem c3_nonretryable_errors_retried_until_budget (code ra : Nat)
    (body : Option Json) (h4 : 400 ≤ code) (h5 : code < 500)
    (h9 : code ≠ 429) :
    http_get (fun _ => .resp code ra body) =
      ⟨.err (.httpError code), 5, [(1, none), (2, none), (3, none), (4, none)]⟩ ∧
    http_get (fun _ => .resp 200 ra none) =
      ⟨.err .jsonError, 5, [(1, none), (2, none), (3, none), (4, none)]⟩ := by
  have hA : ¬(code = 429 ∨ code = 503) := by omega
  have hB : ¬(500 ≤ code) := by omega
  constructor
  · simp [http_get, httpLoop, MAX_RETRIES, hA, hB, h4]
  · simp [http_get, httpLoop, MAX_RETRIES]

/-- C3 witness: the amended statement at the concrete status 404. -/
theorem c3_witness :
    400 ≤ 404 ∧ 404 < 500 ∧ 404 ≠ 429 ∧
    http_get (fun _ => .resp 404 0 (none : Option Json)) =
      ⟨.err (.httpError 404), 5, [(1, none), (2, none), (3, none), (4, none)]⟩ :=
  ⟨by decide, by decide, by decide,
    (c3_nonretryable_errors_retried_until_budget 404 0 none (by decide)
      (by decide) (by decide)).1⟩

/-!
The Paginated Fetcher: `full_dump` and `incremental_from`.  A pass is
driven by `scripts`, mapping the index of each page request to the attempt
script `http_get` runs against.
-/

/-- The query parameters of one page request. -/
structure Params where
  skip : Nat
  top : Nat
  orderby : Option String
  filterExpr : Option String
deriving DecidableEq

/-- An error aborting a fetch pass: an exception raised by `http_get`, or
the `AttributeError` of `j.get(...)` when `http_get` fell off its retry
loop and returned `None`. -/
inductive FetchErr
  | http (e : HErr)
  | noneGet
deriving DecidableEq

/-- The visible behaviour of a fetch pass: the page requests issued in
order, the total merged count (or the error that aborted the pass), and
the landing store afterwards. -/
structure FetchResult where
  requests : List Params
  result : Except FetchErr Nat
  store : Store

/-- Whether a fetch pass ended in an error. -/
def isError : Except FetchErr Nat → Bool
  | .error _ => true
  | .ok _ => false

/-- The record rows of a dict-shaped page response:
`j.get("PublicAssistanceFundedProjectsDetails", ...)` with default `[]`
(the `isinstance(j, list)` arm concerns bare-array responses, which are
not modelled — `j.get` on a bare list would itself raise). -/
def pageRows (j : Json) : List RawRecord := j.rowsField.getD []

/-- The paging loop of `full_dump`, by remaining iterations.  Each
iteration issues `{"$skip": skip, "$top": min(BATCH_SIZE, MAX_TOP)}`,
calls `http_get`, reads the rows off the response (the `.get` call raises
`AttributeError` when `http_get` returned `None`), breaks on an empty
page, merges the page into landing, advances `skip` by the page length,
and breaks after a short page. -/
def fullDumpAux (batch : Nat) (scripts : Nat → Nat → Outcome) :
    Nat → Nat → Nat → Store → Nat → FetchResult
  | 0, _, _, s, total => ⟨[], .ok total, s⟩
  | fuel + 1, i, skip, s, total =>
    let p : Params := ⟨skip, min batch 1000, none, none⟩
    match (http_get (scripts i)).result with
    | .err e => ⟨[p], .error (.http e), s⟩
    | .ok none => ⟨[p], .error .noneGet, s⟩
    | .ok (some j) =>
      let rows := pageRows j
      if rows.isEmpty then ⟨[p], .ok total, s⟩
      else
        let m := upsert_landing s rows
        if rows.length < min batch 1000 then ⟨[p], .ok (total + m.count), m.store⟩
        else
          let rest := fullDumpAux batch scripts fuel (i + 1) (skip + rows.length)
            m.store (total + m.count)
          ⟨p :: rest.requests, rest.result, rest.store⟩

/-- `full_dump()` from the source. -/
def full_dump (batch : Nat) (scripts : Nat → Nat → Outcome) (fuel : Nat)
    (s : Store) : FetchResult :=
  fullDumpAux batch scripts fuel 0 0 s 0

/-- The paging loop of `incremental_from(watermark_iso)`: identical to the
full dump except that every request additionally carries
`"$orderby": "lastRefresh"` and
`"$filter": f"lastRefresh ge {watermark_iso}"`. -/
def incrementalAux (batch : Nat) (scripts : Nat → Nat → Outcome)
    (watermark_iso : String) :
    Nat → Nat → Nat → Store → Nat → FetchResult
  | 0, _, _, s, total => ⟨[], .ok total, s⟩
  | fuel + 1, i, skip, s, total =>
    let p : Params := ⟨skip, min batch 1000, some "lastRefresh",
      some ("lastRefresh ge " ++ watermark_iso)⟩
    match (http_get (scripts i)).result with
    | .err e => ⟨[p], .error (.http e), s⟩
    | .ok none => ⟨[p], .error .noneGet, s⟩
    | .ok (some j) =>
      let rows := pageRows j
      if rows.isEmpty then ⟨[p], .ok total, s⟩
      else
        let m := upsert_landing s rows
        if rows.length < min batch 1000 then ⟨[p], .ok (total + m.count), m.store⟩
        else
          let rest := incrementalAux batch scripts watermark_iso fuel (i + 1)
            (skip + rows.length) m.store (total + m.count)
          ⟨p :: rest.requests, rest.result, rest.store⟩

/-- `incremental_from(watermark_iso)` from the source. -/
def incremental_from (batch : Nat) (scripts : Nat → Nat → Outcome)
    (watermark_iso : String) (fuel : Nat) (s : Store) : FetchResult :=
  incrementalAux batch scripts watermark_iso fuel 0 0 s 0

theorem fullDumpAux_top (batch : Nat) (scripts : Nat → Nat → Outcome) :
    ∀ (fuel i skip : Nat) (s : Store) (total : Nat) (p : Params),
      p ∈ (fullDumpAux batch scripts fuel i skip s total).requests →
      p.top = min batch 1000 := by
  intro fuel
  induction fuel with
  | zero => intro i skip s total p hp; exact absurd hp (by simp [fullDumpAux])
  | succ fuel ih =>
    intro i skip s total p hp
    simp only [fullDumpAux] at hp
    rcases hres : (http_get (scripts i)).result with j | e
    · rcases j with _ | j
      · rw [hres] at hp
        simp at hp
        rw [hp]
      · rw [hres] at hp
        simp only at hp
        by_cases hrows : (pageRows j).isEmpty
        · rw [if_pos hrows] at hp
          simp at hp
          rw [hp]
        · rw [if_neg hrows] at hp
          by_cases hshort : (pageRows j).length < min batch 1000
          · rw [if_pos hshort] at hp
            simp at hp
            rw [hp]
          · rw [if_neg hshort] at hp
            simp only [List.mem_cons] at hp
            rcases hp with hp | hp
            · rw [hp]
            · exact ih _ _ _ _ p hp
    · rw [hres] at hp
      simp at hp
      rw [hp]

theorem incrementalAux_top (batch : Nat) (scripts : Nat → Nat → Outcome)
    (wm : String) :
    ∀ (fuel i skip : Nat) (s : Store) (total : Nat) (p : Params),
      p ∈ (incrementalAux batch scripts wm fuel i skip s total).requests →
      p.top = min batch 1000 := by
  intro fuel
  induction fuel with
  | zero => intro i skip s total p hp; exact absurd hp (by simp [incrementalAux])
  | succ fuel ih =>
    intro i skip s total p hp
    simp only [incrementalAux] at hp
    rcases hres : (http_get (scripts i)).result with j | e
    · rcases j with _ | j
      · rw [hres] at hp
        simp at hp
        rw [hp]
      · rw [hres] at hp
        simp only at hp
        by_cases hrows : (pageRows j).isEmpty
        · rw [if_pos hrows] at hp
          simp at hp
          rw [hp]
        · rw [if_neg hrows] at hp
          by_cases hshort : (pageRows j).length < min batch 1000
          · rw [if_pos hshort] at hp
            simp at hp
            rw [hp]
          · rw [if_neg hshort] at hp
            simp only [List.mem_cons] at hp
            rcases hp with hp | hp
            · rw [hp]
            · exact ih _ _ _ _ p hp
    · rw [hres] at hp
      simp at hp
      rw [hp]

/-- C9: every page request issued by either fetch pass carries
`top = min(configuredBatchSize, 1000)`, which never exceeds 1000. -/
theorem c9_top_clamp (batch fuel : Nat) (scripts : Nat → Nat → Outcome)
    (s : Store) (wm : String) :
    (∀ p ∈ (full_dump batch scripts fuel s).requests,
      p.top = min batch 1000 ∧ p.top ≤ 1000) ∧
    ∀ p ∈ (incremental_from batch scripts wm fuel s).requests,
      p.top = min batch 1000 ∧ p.top ≤ 1000 := by
  constructor
  · intro p hp
    have := fullDumpAux_top batch scripts fuel 0 0 s 0 p hp
    exact ⟨this, by rw [this]; exact Nat.min_le_right _ _⟩
  · intro p hp
    have := incrementalAux_top batch scripts wm fuel 0 0 s 0 p hp
    exact ⟨this, by rw [this]; exact Nat.min_le_right _ _⟩

/-- A benign script: every page request is answered on its first attempt
with an empty record array. -/
def emptyPageScripts : Nat → Nat → Outcome :=
  fun _ _ => .resp 200 0 (some ⟨some []⟩)

/-- C9 witness: with a configured batch size of 5000 the one request
issued carries `top = min 5000 1000 = 1000`. -/
theorem c9_witness :
    (⟨0, 1000, none, none⟩ : Params) ∈
      (full_dump 5000 emptyPageScripts 3 emptyStore).requests ∧
    (⟨0, 1000, none, none⟩ : Params).top = min 5000 1000 ∧
    (⟨0, 1000, none, none⟩ : Params).top ≤ 1000 :=
  ⟨by decide,
    (c9_top_clamp 5000 3 emptyPageScripts emptyStore "w").1 _ (by decide)⟩

/-- The transient error class of the spec: rate limited (429 or 503),
server error (status 500 or greater), or a network-level exception. -/
def TransientOutcome : Outcome → Prop
  | .netErr => True
  | .resp code _ _ => code = 429 ∨ code = 503 ∨ 500 ≤ code

/-- Against an all-transient attempt script the retry loop never returns a
page: it falls off the loop with `None`, or the 5th attempt re-raises a
network error. -/
theorem httpLoop_transient (script : Nat → Outcome)
    (h : ∀ a, TransientOutcome (script a)) :
    ∀ (fuel attempt made : Nat) (calls : List (Nat × Option Nat)),
      (httpLoop script fuel attempt made calls).result = .ok none ∨
      (httpLoop script fuel attempt made calls).result = .err .netError := by
  intro fuel
  induction fuel with
  | zero => intro attempt made calls; left; rfl
  | succ fuel ih =>
    intro attempt made calls
    have ht := h attempt
    simp only [httpLoop]
    cases hs : script attempt with
    | resp code ra body =>
      dsimp only
      rw [hs] at ht
      simp only [TransientOutcome] at ht
      by_cases hc : code = 429 ∨ code = 503
      · rw [if_pos hc]
        exact ih _ _ _
      · rw [if_neg hc]
        have h500 : 500 ≤ code := by
          rcases ht with h1 | h1 | h1
          · exact absurd (Or.inl h1) hc
          · exact absurd (Or.inr h1) hc
          · exact h1
        rw [if_pos h500]
        exact ih _ _ _
    | netErr =>
      dsimp only
      by_cases hat : attempt = MAX_RETRIES
      · rw [if_pos hat]; right; rfl
      · rw [if_neg hat]; exact ih _ _ _

theorem http_get_transient (script : Nat → Outcome)
    (h : ∀ a, TransientOutcome (script a)) :
    (http_get script).result = .ok none ∨
    (http_get script).result = .err .netError :=
  httpLoop_transient script h MAX_RETRIES 1 0 []

theorem fullDumpAux_transient_err (batch : Nat)
    (scripts : Nat → Nat → Outcome) :
    ∀ (fuel i skip : Nat) (s : Store) (total k : Nat),
      k < (fullDumpAux batch scripts fuel i skip s total).requests.length →
      (∀ a, TransientOutcome (scripts (i + k) a)) →
      isError (fullDumpAux batch scripts fuel i skip s total).result = true := by
  intro fuel
  induction fuel with
  | zero =>
    intro i skip s total k hk _
    exact absurd hk (by simp [fullDumpAux])
  | succ fuel ih =>
    intro i skip s total k hk htr
    simp only [fullDumpAux] at hk ⊢
    rcases hres : (http_get (scripts i)).result with j | e
    · rcases j with _ | j
      · rfl
      · rw [hres] at hk
        simp only at hk
        dsimp only
        by_cases hrows : (pageRows j).isEmpty
        · have hk2 : k = 0 := by
            rw [if_pos hrows] at hk
            simpa using hk
          subst hk2
          rcases http_get_transient (scripts i) (by simpa using htr) with hr | hr <;>
            rw [hres] at hr <;> exact absurd hr (by simp)
        · rw [if_neg hrows] at hk ⊢
          by_cases hshort : (pageRows j).length < min batch 1000
          · have hk2 : k = 0 := by
              rw [if_pos hshort] at hk
              simpa using hk
            subst hk2
            rcases http_get_transient (scripts i) (by simpa using htr) with hr | hr <;>
              rw [hres] at hr <;> exact absurd hr (by simp)
          · rw [if_neg hshort] at hk ⊢
            simp only [List.length_cons] at hk
            cases k with
            | zero =>
              rcases http_get_transient (scripts i) (by simpa using htr) with hr | hr <;>
                rw [hres] at hr <;> exact absurd hr (by simp)
            | succ k =>
              have heq : i + (k + 1) = (i + 1) + k := by omega
              rw [heq] at htr
              exact ih (i + 1) _ _ _ k (by omega) htr
    · rfl

theorem incrementalAux_transient_err (batch : Nat)
    (scripts : Nat → Nat → Outcome) (wm : String) :
    ∀ (fuel i skip : Nat) (s : Store) (total k : Nat),
      k < (incrementalAux batch scripts wm fuel i skip s total).requests.length →
      (∀ a, TransientOutcome (scripts (i + k) a)) →
      isError (incrementalAux batch scripts wm fuel i skip s total).result = true := by
  intro fuel
  induction fuel with
  | zero =>
    intro i skip s total k hk _
    exact absurd hk (by simp [incrementalAux])
  | succ fuel ih =>
    intro i skip s total k hk htr
    simp only [incrementalAux] at hk ⊢
    rcases hres : (http_get (scripts i)).result with j | e
    · rcases j with _ | j
      · rfl
      · rw [hres] at hk
        simp only at hk
        dsimp only
        by_cases hrows : (pageRows j).isEmpty
        · have hk2 : k = 0 := by
            rw [if_pos hrows] at hk
            simpa using hk
          subst hk2
          rcases http_get_transient (scripts i) (by simpa using htr) with hr | hr <;>
            rw [hres] at hr <;> exact absurd hr (by simp)
        · rw [if_neg hrows] at hk ⊢
          by_cases hshort : (pageRows j).length < min batch 1000
          · have hk2 : k = 0 := by
              rw [if_pos hshort] at hk
              simpa using hk
            subst hk2
            rcases http_get_transient (scripts i) (by simpa using htr) with hr | hr <;>
              rw [hres] at hr <;> exact absurd hr (by simp)
          · rw [if_neg hshort] at hk ⊢
            simp only [List.length_cons] at hk
            cases k with
            | zero =>
              rcases http_get_transient (scripts i) (by simpa using htr) with hr | hr <;>
                rw [hres] at hr <;> exact absurd hr (by simp)
            | succ k =>
              have heq : i + (k + 1) = (i + 1) + k := by omega
              rw [heq] at htr
              exact ih (i + 1) _ _ _ k (by omega) htr
    · rfl

/-- C5: whenever a page request that a fetch pass actually issues (request
number `k`, full dump and incremental alike) is answered with a transient
error — HTTP 429 or 503, a status of 500 or greater, or a network-level
exception — on all 5 permitted attempts, the whole fetch pass ends in an
error, not in a normal result.  (Mechanically: a network error raised on
the 5th attempt propagates; after five transient HTTP statuses `http_get`
returns `None` and the caller's `j.get(...)` raises `AttributeError`.) -/
theorem c5_transient_exhaustion_fetch_errors (batch fuel : Nat)
    (scripts : Nat → Nat → Outcome) (s : Store) (wm : String) (k : Nat) :
    (k < (full_dump batch scripts fuel s).requests.length →
      (∀ a, TransientOutcome (scripts k a)) →
      isError (full_dump batch scripts fuel s).result = true) ∧
    (k < (incremental_from batch scripts wm fuel s).requests.length →
      (∀ a, TransientOutcome (scripts k a)) →
      isError (incremental_from batch scripts wm fuel s).result = true) := by
  constructor
  · intro hk htr
    exact fullDumpAux_transient_err batch scripts fuel 0 0 s 0 k hk
      (by simpa using htr)
  · intro hk htr
    exact incrementalAux_transient_err batch scripts wm fuel 0 0 s 0 k hk
      (by simpa using htr)

/-- A script answering every attempt of every page request with HTTP 503. -/
def allTransientScripts : Nat → Nat → Outcome := fun _ _ => .resp 503 0 none

/-- C5 witness: one page request answered with 503 on all five attempts
makes the whole full-dump pass end in an error. -/
theorem c5_witness :
    0 < (full_dump 1000 allTransientScripts 1 emptyStore).requests.length ∧
    isError (full_dump 1000 allTransientScripts 1 emptyStore).result = true :=
  ⟨by decide,
    (c5_transient_exhaustion_fetch_errors 1000 1 allTransientScripts
      emptyStore "w" 0).1 (by decide) fun a => Or.inr (Or.inl rfl)⟩

/-!
The Watermark Resolver of `run_cycle`, with `today_midnight_iso_quoted`.
All datetimes are timezone-aware UTC values (`datetime.now(timezone.utc)`
and Postgres `timestamptz` instants rendered in UTC).
-/

/-- A timezone-aware UTC `datetime`, by calendar fields. -/
structure PyDateTime where
  year : Nat
  month : Nat
  day : Nat
  hour : Nat
  minute : Nat
  second : Nat
  microsecond : Nat
deriving DecidableEq

/-- `n` rendered in decimal and zero-padded to `w` digits. -/
def pad (w n : Nat) : String :=
  let s := toString n
  String.mk (List.replicate (w - s.length) '0') ++ s

/-- `t.isoformat().replace("+00:00", "Z")` for a UTC datetime: Python's
`isoformat` renders `YYYY-MM-DDTHH:MM:SS[.ffffff]+00:00`, omitting the
microsecond part exactly when it is zero; `+00:00` occurs only as the
timezone suffix (the rest is digits and separators), so the `replace`
swaps that suffix for `Z`. -/
def isoformatZ (t : PyDateTime) : String :=
  pad 4 t.year ++ "-" ++ pad 2 t.month ++ "-" ++ pad 2 t.day ++ "T" ++
    pad 2 t.hour ++ ":" ++ pad 2 t.minute ++ ":" ++ pad 2 t.second ++
    (if t.microsecond = 0 then "" else "." ++ pad 6 t.microsecond) ++ "Z"

/-- `now.replace(hour=0, minute=0, second=0, microsecond=0)`. -/
def midnightOf (now : PyDateTime) : PyDateTime :=
  ⟨now.year, now.month, now.day, 0, 0, 0, 0⟩

/-- `today_midnight_iso_quoted()`: the current UTC day at midnight,
rendered and wrapped in single quotes. -/
def today_midnight_iso_quoted (now : PyDateTime) : String :=
  "'" ++ isoformatZ (midnightOf now) ++ "'"

/-- Python `max(a, b)` on strings: the second argument when it compares
strictly greater, else the first.  Python compares strings
lexicographically by code point, which is the lexicographic order on
their character lists. -/
def pymax (a b : String) : String := if a.data < b.data then b else a

/-- The watermark decision of `run_cycle` (an aware `datetime` is always
truthy, so `if db_wm:` distinguishes exactly `None`): quote the stored
maximum and take `max(db_iso_q, today_q)` — a string comparison of the two
quoted ISO renderings. -/
def watermark_quoted (db_wm : Option PyDateTime) (now : PyDateTime) : String :=
  let today_q := today_midnight_iso_quoted now
  match db_wm with
  | some d => pymax ("'" ++ isoformatZ d ++ "'") today_q
  | none => today_q

/-- Chronological key of a UTC datetime: mixed-radix encoding, strictly
monotone in the instant for calendar-valid fields, so comparing keys is
comparing the underlying instants. -/
def dtKey (t : PyDateTime) : Nat :=
  (((((t.year * 13 + t.month) * 32 + t.day) * 24 + t.hour) * 60 + t.minute)
      * 60 + t.second) * 1000000 + t.microsecond

/-- Modelled from the spec's words, for comparison with
`watermark_quoted`: return the quoted rendering of the maximum of the
stored value and today's midnight, the maximum taken by timestamp
comparison of the underlying instants. -/
def watermark_spec (db_wm : Option PyDateTime) (now : PyDateTime) : String :=
  match db_wm with
  | some d =>
    if dtKey (midnightOf now) < dtKey d then "'" ++ isoformatZ d ++ "'"
    else today_midnight_iso_quoted now
  | none => today_midnight_iso_quoted now

/-- The stored maximum for the C2 evaluation: half a second past midnight
of the current UTC day (fractional seconds are routine in the feed's
`lastRefresh` values). -/
def dbMaxC2 : PyDateTime := ⟨2025, 3, 10, 0, 0, 0, 500000⟩

/-- The current time for the C2 evaluation: later the same UTC day. -/
def nowC2 : PyDateTime := ⟨2025, 3, 10, 8, 30, 0, 0⟩

/-- C2: the code's watermark maximum is a STRING comparison of the quoted
ISO renderings, and it diverges from the timestamp comparison the claim
states: with the stored maximum at `2025-03-10T00:00:00.500000Z` and the
day start `2025-03-10T00:00:00Z`, the character `.` sorts below `Z`, so
the code returns the day start — the chronologically SMALLER instant —
while the claim requires the stored maximum.  (The code's own comment
asserts the two renderings have the same length, which fails as soon as
the stored maximum carries fractional seconds.) -/
theorem c2_watermark_string_max_diverges :
    watermark_quoted (some dbMaxC2) nowC2 = "'2025-03-10T00:00:00Z'" ∧
    dtKey (midnightOf nowC2) < dtKey dbMaxC2 ∧
    watermark_spec (some dbMaxC2) nowC2 = "'2025-03-10T00:00:00.500000Z'" ∧
    watermark_quoted (some dbMaxC2) nowC2 ≠ watermark_spec (some dbMaxC2) nowC2 := by
  refine ⟨by decide, by decide, by decide, by decide⟩

end Etl
